import Mathlib

/-!
Verification of `UtteranceEncoderNM.forward`
(`nemo/collections/nlp/nm/non_trainables/dialogue_state_tracking/utterance_encoder_nm.py`).

The transform builds a context string from the dialogue history, maps its
whitespace-split tokens to integer ids through an external vocabulary, and
appends the current system and user turns to the history.

Text is modelled as a list of Unicode code points (`List Nat`), matching the
Python view of a string as a sequence of code points.  The Python string
operations used by the source (`str.strip`, `str.lower`, `str.split`,
`str.join`) are embedded below for the ASCII range the specification targets.
-/

namespace UtteranceEncoder

/-- Code points of a Lean string literal, used to write concrete inputs. -/
def str (s : String) : List Nat := s.data.map Char.toNat

/-- Python whitespace test on a code point (ASCII whitespace:
space, tab, newline, carriage return, vertical tab, form feed). -/
def pyIsSpace (n : Nat) : Bool :=
  n == 32 || n == 9 || n == 10 || n == 13 || n == 11 || n == 12

/-- `str.lower` on one ASCII code point: map A-Z to a-z, keep the rest. -/
def pyLowerChar (n : Nat) : Nat :=
  if 65 ≤ n ∧ n ≤ 90 then n + 32 else n

/-- `str.upper` on one ASCII code point: map a-z to A-Z, keep the rest. -/
def pyUpperChar (n : Nat) : Nat :=
  if 97 ≤ n ∧ n ≤ 122 then n - 32 else n

/-- Python `str.lower`, pointwise over the code points. -/
def pyLower (t : List Nat) : List Nat := t.map pyLowerChar

/-- Python `str.upper`, pointwise over the code points. -/
def pyUpper (t : List Nat) : List Nat := t.map pyUpperChar

/-- Python `str.strip()`: drop leading and trailing whitespace. -/
def pyStrip (t : List Nat) : List Nat :=
  ((t.dropWhile pyIsSpace).reverse.dropWhile pyIsSpace).reverse

/-- Worker for `pySplit`; `acc` holds the current in-progress token reversed. -/
def pySplitGo : List Nat → List Nat → List (List Nat)
  | acc, [] => if acc = [] then [] else [acc.reverse]
  | acc, c :: cs =>
      if pyIsSpace c then
        if acc = [] then pySplitGo [] cs
        else acc.reverse :: pySplitGo [] cs
      else pySplitGo (c :: acc) cs

/-- Python `str.split()` with no argument: split on runs of whitespace,
discarding empty pieces. -/
def pySplit (s : List Nat) : List (List Nat) := pySplitGo [] s

/-- A dialogue turn, a (speaker-tag, utterance-text) pair;
the source stores two-element lists `[tag, text]` and reads `item[1]`. -/
abbrev Turn := List Nat × List Nat

/-- The `"sys"` speaker tag. -/
def sysTag : List Nat := str "sys"

/-- The `"user"` speaker tag. -/
def userTag : List Nat := str "user"

/-- Line 106 of the source:
`context = ' ; '.join([item[1].strip().lower() for item in dial_history]).strip() + ' ;'`. -/
def buildContext (dial_history : List Turn) : List Nat :=
  pyStrip (List.intercalate (str " ; ")
    (dial_history.map (fun item => pyLower (pyStrip item.2)))) ++ str " ;"

/-- Modelled from the spec: the external vocabulary lookup
(`self.data_desc.vocab.tokens2ids`, not part of this file) maps each
whitespace-split token to an integer id, elementwise. -/
def tokens2ids (vocab : List Nat → Int) (tokens : List (List Nat)) : List Int :=
  tokens.map vocab

/-- `UtteranceEncoderNM.forward` (lines 106-119): build the context from the
current history, look the tokens up in the vocabulary, then append the system
turn and the user turn, and return (ids, length, updated history).  The tensor
wrapping of the ids and of the length is packaging and is not modelled. -/
def forward (vocab : List Nat → Int) (dial_history : List Turn)
    (user_uttr sys_uttr : List Nat) : List Int × Nat × List Turn :=
  let context := buildContext dial_history
  let context_ids := tokens2ids vocab (pySplit context)
  (context_ids, context_ids.length,
    dial_history ++ [(sysTag, sys_uttr), (userTag, user_uttr)])

/-- `UtteranceEncoderNM.forward` with the external lookup allowed to fail,
mirroring the control flow of the source: the lookup on line 107 runs before
the `append` calls on lines 112-113, so an exception there leaves the
history exactly as it was.  The second component is the state of the
caller-shared history object when the call ends. -/
def forwardExc {ε : Type} (t2i : List (List Nat) → Except ε (List Int))
    (dial_history : List Turn) (user_uttr sys_uttr : List Nat) :
    Except ε (List Int × Nat) × List Turn :=
  match t2i (pySplit (buildContext dial_history)) with
  | .error e => (.error e, dial_history)
  | .ok context_ids =>
      (.ok (context_ids, context_ids.length),
       dial_history ++ [(sysTag, sys_uttr), (userTag, user_uttr)])

/-- A code point of printable ASCII. -/
def printable (n : Nat) : Bool := 32 ≤ n && n ≤ 126

/-- Apply a text transformation to every history entry, keeping the tags. -/
def mapTexts (f : List Nat → List Nat) (H : List Turn) : List Turn :=
  H.map (fun p => (p.1, f p.2))

/-- The example history of the specification. -/
def exampleHistory : List Turn :=
  [(sysTag, str "hello"), (userTag, str "I need a train")]

theorem pyIsSpace_pyUpperChar (n : Nat) :
    pyIsSpace (pyUpperChar n) = pyIsSpace n := by
  unfold pyUpperChar
  split
  · rename_i h
    have h1 : pyIsSpace (n - 32) = false := by simp [pyIsSpace]; omega
    have h2 : pyIsSpace n = false := by simp [pyIsSpace]; omega
    rw [h1, h2]
  · rfl

theorem pyIsSpace_pyLowerChar (n : Nat) :
    pyIsSpace (pyLowerChar n) = pyIsSpace n := by
  unfold pyLowerChar
  split
  · rename_i h
    have h1 : pyIsSpace (n + 32) = false := by simp [pyIsSpace]; omega
    have h2 : pyIsSpace n = false := by simp [pyIsSpace]; omega
    rw [h1, h2]
  · rfl

theorem pyLowerChar_pyUpperChar (n : Nat) :
    pyLowerChar (pyUpperChar n) = pyLowerChar n := by
  simp only [pyLowerChar, pyUpperChar]
  split_ifs <;> omega

theorem pyLowerChar_pyLowerChar (n : Nat) :
    pyLowerChar (pyLowerChar n) = pyLowerChar n := by
  simp only [pyLowerChar]
  split_ifs <;> omega

theorem pyStrip_map (f : Nat → Nat) (hf : ∀ n, pyIsSpace (f n) = pyIsSpace n)
    (t : List Nat) : pyStrip (t.map f) = (pyStrip t).map f := by
  have hpf : (pyIsSpace ∘ f) = pyIsSpace := funext hf
  unfold pyStrip
  rw [List.dropWhile_map, hpf, ← List.map_reverse, List.dropWhile_map, hpf,
    ← List.map_reverse]

theorem pyLower_pyStrip_pyUpper (t : List Nat) :
    pyLower (pyStrip (pyUpper t)) = pyLower (pyStrip t) := by
  unfold pyLower pyUpper
  rw [pyStrip_map pyUpperChar pyIsSpace_pyUpperChar, List.map_map]
  have h : (pyLowerChar ∘ pyUpperChar) = pyLowerChar :=
    funext pyLowerChar_pyUpperChar
  rw [h]

theorem pyLower_pyStrip_pyLower (t : List Nat) :
    pyLower (pyStrip (pyLower t)) = pyLower (pyStrip t) := by
  unfold pyLower
  rw [pyStrip_map pyLowerChar pyIsSpace_pyLowerChar, List.map_map]
  have h : (pyLowerChar ∘ pyLowerChar) = pyLowerChar :=
    funext pyLowerChar_pyLowerChar
  rw [h]

theorem buildContext_mapTexts (f : List Nat → List Nat)
    (hf : ∀ t, pyLower (pyStrip (f t)) = pyLower (pyStrip t)) (H : List Turn) :
    buildContext (mapTexts f H) = buildContext H := by
  unfold buildContext mapTexts
  rw [List.map_map]
  have h : ((fun item : Turn => pyLower (pyStrip item.2)) ∘
      (fun p : Turn => (p.1, f p.2))) = fun item : Turn => pyLower (pyStrip item.2) :=
    funext fun p => hf p.2
  rw [h]

theorem pySplitGo_concat_space_semi (xs : List Nat) :
    ∀ acc : List Nat, ∃ l, pySplitGo acc (xs ++ [32, 59]) = l ++ [[59]] := by
  induction xs with
  | nil =>
    intro acc
    by_cases h : acc = []
    · exact ⟨[], by simp [pySplitGo, h, pyIsSpace]⟩
    · exact ⟨[acc.reverse], by simp [pySplitGo, h, pyIsSpace]⟩
  | cons c cs ih =>
    intro acc
    by_cases hc : pyIsSpace c = true
    · by_cases h : acc = []
      · obtain ⟨l, hl⟩ := ih []
        exact ⟨l, by simp [pySplitGo, hc, h, hl]⟩
      · obtain ⟨l, hl⟩ := ih []
        exact ⟨acc.reverse :: l, by simp [pySplitGo, hc, h, hl]⟩
    · obtain ⟨l, hl⟩ := ih (c :: acc)
      exact ⟨l, by simp [pySplitGo, hc, hl]⟩

end UtteranceEncoder

namespace UtteranceEncoder

/-- C1: the returned ids are exactly the vocabulary lookup mapped over the
whitespace-split tokens of the derived context (join of stripped, lower-cased
history texts with " ; ", stripped, with " ;" appended): the ids correspond
1:1 to those tokens. -/
theorem forward_ids_are_vocab_of_context_tokens
    (vocab : List Nat → Int) (H : List Turn) (u s : List Nat) :
    (forward vocab H u s).1 = (pySplit (buildContext H)).map vocab ∧
    (forward vocab H u s).1.length = (pySplit (buildContext H)).length := by
  refine ⟨rfl, ?_⟩
  simp [forward, tokens2ids]

/-- C2: the updated history is the input history with the system turn appended
first and the user turn appended second, with every pre-existing entry
unchanged. -/
theorem forward_history_update
    (vocab : List Nat → Int) (H : List Turn) (u s : List Nat) :
    (forward vocab H u s).2.2 = H ++ [(sysTag, s), (userTag, u)] ∧
    (forward vocab H u s).2.2.take H.length = H := by
  refine ⟨rfl, ?_⟩
  simp [forward, List.take_left]

/-- C3: the returned ids and length are computed from the history before the
new turns are appended and do not depend on the user or system utterances. -/
theorem forward_ids_independent_of_utterances
    (vocab : List Nat → Int) (H : List Turn) (u s u' s' : List Nat) :
    (forward vocab H u s).1 = (forward vocab H u' s').1 ∧
    (forward vocab H u s).2.1 = (forward vocab H u' s').2.1 :=
  ⟨rfl, rfl⟩

/-- C4: the returned length equals the number of elements of the returned
id sequence. -/
theorem forward_length_eq_ids_length
    (vocab : List Nat → Int) (H : List Turn) (u s : List Nat) :
    (forward vocab H u s).2.1 = (forward vocab H u s).1.length :=
  rfl

/-- C5: on the empty history the transform produces the single-token context
";" — the token list passed to the vocabulary is just [";"] and the returned
length is 1. -/
theorem forward_empty_history
    (vocab : List Nat → Int) (u s : List Nat) :
    pySplit (buildContext []) = [str ";"] ∧
    (forward vocab [] u s).2.1 = 1 := by
  constructor
  · rfl
  · rfl

/-- C6: for a history of printable-ASCII texts, upper-casing the texts (or
lower-casing them) leaves the derived context, and hence the returned ids,
unchanged: the pipeline lower-cases the history texts. -/
theorem forward_case_folding (vocab : List Nat → Int) (H : List Turn)
    (u s : List Nat) (_hp : ∀ p ∈ H, p.2.all printable = true) :
    buildContext (mapTexts pyUpper H) = buildContext H ∧
    buildContext (mapTexts pyLower H) = buildContext H ∧
    (forward vocab (mapTexts pyUpper H) u s).1 = (forward vocab H u s).1 := by
  have hu : buildContext (mapTexts pyUpper H) = buildContext H :=
    buildContext_mapTexts pyUpper pyLower_pyStrip_pyUpper H
  have hl : buildContext (mapTexts pyLower H) = buildContext H :=
    buildContext_mapTexts pyLower pyLower_pyStrip_pyLower H
  exact ⟨hu, hl, by simp [forward, hu]⟩

/-- Witness for C6 at a concrete printable-ASCII history. -/
theorem forward_case_folding_witness :
    (∀ p ∈ ([(sysTag, str "Hi THERE")] : List Turn), p.2.all printable = true) ∧
    buildContext (mapTexts pyUpper [(sysTag, str "Hi THERE")]) =
      buildContext [(sysTag, str "Hi THERE")] := by
  have h : ∀ p ∈ ([(sysTag, str "Hi THERE")] : List Turn),
      p.2.all printable = true := by decide
  exact ⟨h, (forward_case_folding (fun _ => 0) _ [] [] h).1⟩

/-- C7: the specification's concrete example — derived context, token list,
and updated history. -/
theorem forward_concrete_example (vocab : List Nat → Int) :
    buildContext exampleHistory = str "hello ; i need a train ;" ∧
    pySplit (buildContext exampleHistory) =
      [str "hello", str ";", str "i", str "need", str "a", str "train", str ";"] ∧
    (forward vocab exampleHistory (str "to cambridge") (str "sure, when?")).2.2 =
      exampleHistory ++ [(sysTag, str "sure, when?"), (userTag, str "to cambridge")] :=
  ⟨by decide, by decide, rfl⟩

/-- C8: a failure of the external vocabulary lookup propagates to the caller
unchanged; the transform performs no catch or reinterpretation. -/
theorem forwardExc_propagates_error {ε : Type}
    (t2i : List (List Nat) → Except ε (List Int)) (H : List Turn)
    (u s : List Nat) (e : ε)
    (h : t2i (pySplit (buildContext H)) = .error e) :
    (forwardExc t2i H u s).1 = .error e := by
  simp [forwardExc, h]

/-- Witness for C8 with a lookup that always fails. -/
theorem forwardExc_propagates_error_witness :
    ((fun _ : List (List Nat) => (Except.error 7 : Except Nat (List Int)))
        (pySplit (buildContext [])) = Except.error 7) ∧
    (forwardExc (fun _ : List (List Nat) =>
        (Except.error 7 : Except Nat (List Int))) [] [] []).1 = Except.error 7 :=
  ⟨rfl, forwardExc_propagates_error _ [] [] [] 7 rfl⟩

/-- C9: when the external vocabulary lookup fails, the history is left
unmodified — the appends happen only after the lookup succeeds. -/
theorem forwardExc_error_preserves_history {ε : Type}
    (t2i : List (List Nat) → Except ε (List Int)) (H : List Turn)
    (u s : List Nat) (e : ε)
    (h : t2i (pySplit (buildContext H)) = .error e) :
    (forwardExc t2i H u s).2 = H := by
  simp [forwardExc, h]

/-- Witness for C9 with a lookup that always fails. -/
theorem forwardExc_error_preserves_history_witness :
    ((fun _ : List (List Nat) => (Except.error 5 : Except Nat (List Int)))
        (pySplit (buildContext [(sysTag, str "hi")])) = Except.error 5) ∧
    (forwardExc (fun _ : List (List Nat) =>
        (Except.error 5 : Except Nat (List Int)))
        [(sysTag, str "hi")] [] []).2 = [(sysTag, str "hi")] :=
  ⟨rfl, forwardExc_error_preserves_history _ [(sysTag, str "hi")] [] [] 5 rfl⟩

/-- C10: every derived context ends with the delimiter " ;", so the token list
is non-empty with last token ";" and the returned length is at least 1. -/
theorem forward_context_delimiter (vocab : List Nat → Int) (H : List Turn)
    (u s : List Nat) :
    (∃ t, buildContext H = t ++ str " ;") ∧
    pySplit (buildContext H) ≠ [] ∧
    (pySplit (buildContext H)).getLast? = some (str ";") ∧
    1 ≤ (forward vocab H u s).2.1 := by
  have hsuffix : buildContext H =
      pyStrip (List.intercalate (str " ; ")
        (H.map (fun item => pyLower (pyStrip item.2)))) ++ str " ;" := rfl
  have hds : str " ;" = [32, 59] := rfl
  have hsemi : str ";" = [59] := rfl
  obtain ⟨l, hl⟩ := pySplitGo_concat_space_semi
    (pyStrip (List.intercalate (str " ; ")
      (H.map (fun item => pyLower (pyStrip item.2))))) []
  have hsplit : pySplit (buildContext H) = l ++ [[59]] := by
    rw [hsuffix, hds]
    exact hl
  refine ⟨⟨_, hsuffix⟩, ?_, ?_, ?_⟩
  · rw [hsplit]; simp
  · rw [hsplit, hsemi]
    exact List.getLast?_concat l
  · simp [forward, tokens2ids, hsplit]

end UtteranceEncoder
